import Mathlib

/-!
Verification development for the voice-chat signaling server.

The model below is a shallow embedding of the channel registry
(`channelsStore.js`), the configuration module (`config.js`) and the
Socket.IO server (`server.js` with channels).  JavaScript `Map`s are
modelled as association lists in insertion order (`Map.set` overwrites
the value at an existing key in place, otherwise appends; `Map.get`
returns the first — unique — entry; `Map.delete` removes the entry).
JavaScript numbers are modelled as `Int` (all values the program stores
in `maxUsers` are integers in the claims considered); absent values
(`undefined`) are modelled as `Option`; JS truthiness on strings is
`≠ ""`, on numbers `≠ 0`, on options `Option.isSome`-with-truthy-content
as spelled out at each use site.
-/

deriving instance DecidableEq for Except

namespace VoiceChat

/-- JS `String.prototype.trim()`: strip whitespace from both ends. -/
def jsTrim (s : String) : String :=
  String.mk (((s.data.dropWhile Char.isWhitespace).reverse.dropWhile
    Char.isWhitespace).reverse)

/-- Configuration module (`config.js`): `{port, maxRoomUsers, allowedOrigins}`. -/
structure Config where
  port : Int
  maxRoomUsers : Int
  allowedOrigins : List String
deriving Repr, DecidableEq

/-- A channel record as stored by the registry (`channelsStore.js`).
`passwordHash` is `none` when the JS field is `undefined`. -/
structure Channel where
  id : String
  name : String
  maxUsers : Int
  hasPassword : Bool
  passwordHash : Option String
  createdAt : String
deriving Repr, DecidableEq

/- ## Association-list primitives (JS `Map` in insertion order) -/

/-- `Map.get k`: first entry whose key equals `k`. -/
def getAssoc {α : Type} : List (String × α) → String → Option α
  | [], _ => none
  | p :: l, k => if p.1 = k then some p.2 else getAssoc l k

/-- `Map.set k v`: overwrite in place if the key is present, else append. -/
def setAssoc {α : Type} : List (String × α) → String → α → List (String × α)
  | [], k, v => [(k, v)]
  | p :: l, k, v => if p.1 = k then (k, v) :: l else p :: setAssoc l k v

/-- `Map.delete k`. -/
def delAssoc {α : Type} : List (String × α) → String → List (String × α)
  | [], _ => []
  | p :: l, k => if p.1 = k then delAssoc l k else p :: delAssoc l k

/- ## Registry (`channelsStore.js`) -/

/-- The registry `Map<string, Channel>` keyed by `channel.id`
(`channels.set(id, channel)` always uses `channel.id` as the key,
so the key is stored inside the record). -/
def getChannel : List Channel → String → Option Channel
  | [], _ => none
  | c :: reg, cid => if c.id = cid then some c else getChannel reg cid

/-- `channels.set(channel.id, channel)`. -/
def setChannel : List Channel → Channel → List Channel
  | [], c => [c]
  | x :: reg, c => if x.id = c.id then c :: reg else x :: setChannel reg c

/-- The ids currently present in the registry (the map keys). -/
def regIds (reg : List Channel) : List String := reg.map (·.id)

/-- JS `String.prototype.toLowerCase` restricted to the alphabets the
slugifier can produce: ASCII letters and the Cyrillic range used by the
source regex (`А..Я → а..я`, `Ё → ё`). -/
def jsToLower (c : Char) : Char :=
  let n := c.toNat
  if 65 ≤ n ∧ n ≤ 90 then Char.ofNat (n + 32)
  else if 1040 ≤ n ∧ n ≤ 1071 then Char.ofNat (n + 32)
  else if n = 1025 then Char.ofNat 1105
  else c

/-- Characters kept by the slug regex `[^a-z0-9а-яё]` (after lowering). -/
def isSlugChar (c : Char) : Bool :=
  let n := c.toNat
  decide ((97 ≤ n ∧ n ≤ 122) ∨ (48 ≤ n ∧ n ≤ 57) ∨ (1072 ≤ n ∧ n ≤ 1103) ∨ n = 1105)

/-- Collapse runs of `-` to a single `-` (the replace of dash-runs by a
single dash; the first regex `[^a-z0-9а-яё]+ → '-'` already collapses
runs, composing the per-character replacement with this collapse is
equivalent). -/
def collapseDashes (cs : List Char) : List Char :=
  cs.foldr (fun c acc => if c = '-' ∧ acc.head? = some '-' then acc else c :: acc) []

/-- Strip leading and trailing `-` (the replace of a dash at either end
of the string by the empty string). -/
def trimDashes (cs : List Char) : List Char :=
  ((cs.dropWhile (· = '-')).reverse.dropWhile (· = '-')).reverse

/-- `slugify(name)` from `channelsStore.js`; `rnd` stands for the random
suffix `Math.random().toString(36).slice(2, 8)` used by the fallback. -/
def slugify (name : String) (rnd : String) : String :=
  let s := String.mk (trimDashes (collapseDashes
    ((name.data.map jsToLower).map (fun c => if isSlugChar c then c else '-'))))
  if s = "" then "channel-" ++ rnd else s

/-- Length of the longest key among the taken ids. -/
def maxKeyLen (taken : List String) : Nat :=
  taken.foldr (fun s m => max s.length m) 0

/-- The collision loop `while (channels.has(id)) id = id + '-' + rand()`,
with an explicit fuel.  Each iteration appends `'-' + rands k`, so the
candidate strictly lengthens; `maxKeyLen taken + 1` fuel provably
suffices to leave every taken id behind (see `freshId_not_mem`). -/
def freshIdAux (taken : List String) (rands : Nat → String) :
    Nat → String → Nat → String
  | 0, id, _ => id
  | fuel + 1, id, k =>
    if id ∈ taken then freshIdAux taken rands fuel (id ++ "-" ++ rands k) (k + 1)
    else id

/-- Resolve id collisions exactly as the source loop does. -/
def freshId (taken : List String) (rands : Nat → String) (id0 : String) : String :=
  freshIdAux taken rands (maxKeyLen taken + 1) id0 1

/-- Arguments of `createChannel({name, maxUsers, password})`; each field
may be absent (`undefined`). -/
structure CreateParams where
  name : Option String
  maxUsers : Option Int
  password : Option String
deriving Repr, DecidableEq

/-- Errors a create call can surface: `throw new Error('NAME_REQUIRED')`
or a thrown `fs.writeFileSync` failure inside `saveChannelsToDisk`. -/
inductive CreateErr
  | nameRequired
  | persistFailure
deriving Repr, DecidableEq

/-- One entry of the persisted `channels.json` array.  `JSON.stringify`
omits an `undefined` `passwordHash`, which `Option` models. -/
structure PersistedRecord where
  id : String
  name : String
  maxUsers : Int
  hasPassword : Bool
  passwordHash : Option String
  createdAt : String
deriving Repr, DecidableEq

/-- Serialization of one channel into its JSON record. -/
def chanToRec (c : Channel) : PersistedRecord :=
  ⟨c.id, c.name, c.maxUsers, c.hasPassword, c.passwordHash, c.createdAt⟩

/-- `saveChannelsToDisk`: serialize `Array.from(channels.values())`. -/
def saveChannelsToDisk (reg : List Channel) : List PersistedRecord :=
  reg.map chanToRec

/-- The per-record part of `loadChannelsFromDisk`'s parse path:
`if (ch && ch.id && ch.name)` filters by truthiness, then the fields are
coerced (`Number(ch.maxUsers) || 10`, `Boolean(ch.hasPassword)`,
`ch.passwordHash ? String(ch.passwordHash) : undefined`,
`ch.createdAt || new Date().toISOString()` with `now` the clock value). -/
def recToChan (now : String) (r : PersistedRecord) : Option Channel :=
  if r.id = "" ∨ r.name = "" then none
  else some
    { id := r.id
      name := r.name
      maxUsers := if r.maxUsers = 0 then 10 else r.maxUsers
      hasPassword := r.hasPassword
      passwordHash :=
        match r.passwordHash with
        | some s => if s = "" then none else some s
        | none => none
      createdAt := if r.createdAt = "" then now else r.createdAt }

/-- `parsed.forEach(ch => { if (...) channels.set(ch.id, {...}) })` into a
fresh map: the parse path of `loadChannelsFromDisk` (the seeding paths
for a missing or unparsable file are not needed by the claims). -/
def loadChannelsFromDisk (now : String) (recs : List PersistedRecord) : List Channel :=
  recs.foldl
    (fun reg r =>
      match recToChan now r with
      | some c => setChannel reg c
      | none => reg)
    []

/-- The registry's full state: the in-memory `Map` plus the content of
the backing store `channels.json`. -/
structure Store where
  channels : List Channel
  disk : List PersistedRecord
deriving Repr, DecidableEq

/-- The channel object `createChannel` builds once the name check has
passed: `id` from `slugify` plus the collision loop, `maxUsers` from
`Number(params.maxUsers) > 0 ? Number(params.maxUsers) : 10` (the
literal `10`, not the configured default), `password` from
`params.password ? String(params.password) : null`. -/
def mkCreatedChannel (p : CreateParams) (st : Store) (rands : Nat → String)
    (now : String) : Channel :=
  let name := jsTrim (p.name.getD "")
  let id := freshId (regIds st.channels) rands (slugify name (rands 0))
  let maxUsers : Int :=
    match p.maxUsers with
    | some n => if 0 < n then n else 10
    | none => 10
  let password : Option String :=
    match p.password with
    | some s => if s = "" then none else some s
    | none => none
  ⟨id, name, maxUsers, password.isSome, password, now⟩

/-- `createChannel(params)` from `channelsStore.js`.  `rands` supplies the
`Math.random().toString(36)`-derived strings (`rands 0` for the slug
fallback, `rands 1, rands 2, …` for collision suffixes), `now` the
clock, and `writeOk` whether the synchronous `fs.writeFileSync` inside
`saveChannelsToDisk` succeeds.  Note the source mutates the in-memory
map *before* the disk write: on a write failure the thrown error
propagates but the channel stays in `channels`. -/
def createChannel (p : CreateParams) (st : Store) (rands : Nat → String)
    (now : String) (writeOk : Bool) : Except CreateErr Channel × Store :=
  if jsTrim (p.name.getD "") = "" then (.error .nameRequired, st)
  else
    let channel := mkCreatedChannel p st rands now
    let st1 : Store := { st with channels := setChannel st.channels channel }
    if writeOk then (.ok channel, { st1 with disk := saveChannelsToDisk st1.channels })
    else (.error .persistFailure, st1)

/-- `updateChannel(id, patch)` from `channelsStore.js`. -/
def updateChannel (cid : String) (patch : CreateParams) (st : Store)
    (writeOk : Bool) : Except CreateErr (Option Channel) × Store :=
  match getChannel st.channels cid with
  | none => (.ok none, st)
  | some existing =>
    let c1 :=
      match patch.name with
      | some n => if jsTrim n = "" then existing else { existing with name := jsTrim n }
      | none => existing
    let c2 :=
      match patch.maxUsers with
      | some n => if 0 < n then { c1 with maxUsers := n } else c1
      | none => c1
    let c3 :=
      match patch.password with
      | some s =>
        if s = "" then { c2 with hasPassword := false, passwordHash := none }
        else { c2 with hasPassword := true, passwordHash := some s }
      | none => c2
    let st1 : Store := { st with channels := setChannel st.channels c3 }
    if writeOk then (.ok (some c3), { st1 with disk := saveChannelsToDisk st1.channels })
    else (.error .persistFailure, st1)

/-- `POST /channels` handler in `server.js`: status 201 on success,
400 for `NAME_REQUIRED`, 500 `INTERNAL_ERROR` for any other thrown
error (in particular a persistence-write failure). -/
def postChannels (p : CreateParams) (st : Store) (rands : Nat → String)
    (now : String) (writeOk : Bool) : Nat × Store :=
  match createChannel p st rands now writeOk with
  | (.ok _, st1) => (201, st1)
  | (.error .nameRequired, st1) => (400, st1)
  | (.error .persistFailure, st1) => (500, st1)

/- ## Presence (`server.js`) -/

/-- An entry of the inner member map: `{socketId, name, joinedAt}`. -/
structure Member where
  socketId : String
  name : String
  joinedAt : String
deriving Repr, DecidableEq

/-- The `{socketId, name}` view sent in `room-users` / `user-joined`. -/
structure PeerInfo where
  socketId : String
  name : String
deriving Repr, DecidableEq

/-- `members.has(sid)` on the inner map keyed by socket id. -/
def hasMember (ms : List Member) (sid : String) : Bool :=
  ms.any (fun m => m.socketId == sid)

/-- `members.set(m.socketId, m)`. -/
def setMember : List Member → Member → List Member
  | [], m => [m]
  | x :: ms, m => if x.socketId = m.socketId then m :: ms else x :: setMember ms m

/-- The two presence maps of `server.js`: `channelMembers` and
`socketChannelMap`. -/
structure Presence where
  channelMembers : List (String × List Member)
  socketChannelMap : List (String × String)
deriving Repr, DecidableEq

/-- `channelMembers.get(id) ?? (channelMembers.set(id, new Map()))`:
the handler inserts an empty member map when the channel has none. -/
def ensureMembers (cm : List (String × List Member)) (cid : String) :
    List (String × List Member) :=
  match getAssoc cm cid with
  | some _ => cm
  | none => setAssoc cm cid []

/-- Effective capacity at join time: `channel.maxUsers || config.maxRoomUsers`. -/
def effectiveCap (cfg : Config) (ch : Channel) : Int :=
  if ch.maxUsers = 0 then cfg.maxRoomUsers else ch.maxUsers

/-- What the `join-room` handler does for the requester. -/
inductive JoinOutcome
  | ignored
  | rejected (code : String)
  | admitted (users : List PeerInfo) (maxUsers : Int)
deriving Repr, DecidableEq

/-- Result of one `join-room` event: the outcome reported to the
requester, the presence state afterwards, and whether
`broadcastChannelsState()` fired. -/
structure JoinResult where
  outcome : JoinOutcome
  state : Presence
  broadcast : Bool
deriving Repr, DecidableEq

/-- The `join-room` handler of `server.js`, for socket `sid` with payload
`{roomId, userName, password}` (each possibly absent). -/
def joinRoom (cfg : Config) (reg : List Channel) (pre : Presence) (sid : String)
    (roomId userName password : Option String) (now : String) : JoinResult :=
  let channelId := jsTrim (roomId.getD "")
  if channelId = "" then ⟨.ignored, pre, false⟩
  else
    match getChannel reg channelId with
    | none => ⟨.rejected "CHANNEL_NOT_FOUND", pre, false⟩
    | some channel =>
      let members := (getAssoc pre.channelMembers channelId).getD []
      let pre1 : Presence := ⟨ensureMembers pre.channelMembers channelId, pre.socketChannelMap⟩
      if effectiveCap cfg channel ≤ (members.length : Int) then
        ⟨.rejected "ROOM_FULL", pre1, false⟩
      else if channel.hasPassword = true ∧
          (password.getD "" = "" ∨ password.getD "" ≠ channel.passwordHash.getD "") then
        ⟨.rejected "WRONG_PASSWORD", pre1, false⟩
      else
        let member : Member :=
          ⟨sid, if userName.getD "" = "" then "Без имени" else userName.getD "", now⟩
        let members1 := setMember members member
        let others := (members1.filter (fun m => !(m.socketId == sid))).map
          (fun m => PeerInfo.mk m.socketId m.name)
        ⟨.admitted others (effectiveCap cfg channel),
         ⟨setAssoc pre1.channelMembers channelId members1,
          setAssoc pre.socketChannelMap sid channelId⟩,
         true⟩

/-- Result of one `disconnect` event. -/
structure DisconnectResult where
  state : Presence
  broadcast : Bool
deriving Repr, DecidableEq

/-- The `disconnect` handler of `server.js`. -/
def disconnect (pre : Presence) (sid : String) : DisconnectResult :=
  match getAssoc pre.socketChannelMap sid with
  | none => ⟨pre, false⟩
  | some channelId =>
    let cm1 :=
      match getAssoc pre.channelMembers channelId with
      | some members =>
        if hasMember members sid then
          let members1 := members.filter (fun m => !(m.socketId == sid))
          if members1.isEmpty then delAssoc pre.channelMembers channelId
          else setAssoc pre.channelMembers channelId members1
        else pre.channelMembers
      | none => pre.channelMembers
    ⟨⟨cm1, delAssoc pre.socketChannelMap sid⟩, true⟩

/- ## State broadcaster (`buildChannelsState`) -/

/-- The `{socketId, name}` entries of `onlineUsers`. -/
structure PublicUser where
  socketId : String
  name : String
deriving Repr, DecidableEq

/-- One entry of the public channels-state payload. -/
structure PublicChannel where
  id : String
  name : String
  maxUsers : Int
  hasPassword : Bool
  onlineCount : Nat
  onlineUsers : List PublicUser
deriving Repr, DecidableEq

/-- `buildChannelsState()` from `server.js`. -/
def buildChannelsState (reg : List Channel) (pre : Presence) : List PublicChannel :=
  reg.map fun ch =>
    let onlineUsers :=
      match getAssoc pre.channelMembers ch.id with
      | some members => members.map (fun m => PublicUser.mk m.socketId m.name)
      | none => []
    ⟨ch.id, ch.name, ch.maxUsers, ch.hasPassword, onlineUsers.length, onlineUsers⟩

/- ## Derived predicates used by the statements -/

/-- `sid` is currently listed in channel `cid`'s member map. -/
def memberOf (pre : Presence) (cid sid : String) : Bool :=
  hasMember ((getAssoc pre.channelMembers cid).getD []) sid

/-- Consistency of the presence tables: every listed membership is the
one recorded in the reverse map (hence each connection is listed in at
most one channel). -/
def PresenceInv (pre : Presence) : Prop :=
  ∀ sid cid, memberOf pre cid sid = true → getAssoc pre.socketChannelMap sid = some cid

/-- Shape invariant of every channel record the registry constructs:
nonempty id, name and timestamp, a nonzero capacity, and a password
secret that is absent or nonempty. -/
def ChannelWF (c : Channel) : Prop :=
  c.id ≠ "" ∧ c.name ≠ "" ∧ c.maxUsers ≠ 0 ∧ c.createdAt ≠ "" ∧ c.passwordHash ≠ some ""

/-- Two channel records agreeing on every broadcast-visible field (they
may differ in `passwordHash` and `createdAt`). -/
def SamePublic (a b : Channel) : Prop :=
  a.id = b.id ∧ a.name = b.name ∧ a.maxUsers = b.maxUsers ∧ a.hasPassword = b.hasPassword

instance (c : Channel) : Decidable (ChannelWF c) :=
  decidable_of_iff
    (c.id ≠ "" ∧ c.name ≠ "" ∧ c.maxUsers ≠ 0 ∧ c.createdAt ≠ "" ∧ c.passwordHash ≠ some "")
    Iff.rfl

/-- A two-channel registry used to demonstrate the double-join behavior. -/
def demoRegXY : List Channel :=
  [⟨"x", "X", 10, false, none, "t"⟩, ⟨"y", "Y", 10, false, none, "t"⟩]

/-- Socket `s` joins channel `x`, then channel `y`, without disconnecting:
the resulting presence state. -/
def demoDoubleJoin : Presence :=
  (joinRoom ⟨3000, 10, ["*"]⟩ demoRegXY
    (joinRoom ⟨3000, 10, ["*"]⟩ demoRegXY ⟨[], []⟩ "s" (some "x") (some "Alice") none "t1").state
    "s" (some "y") (some "Alice") none "t2").state

/-- A one-channel registry used to exercise rejoin behavior. -/
def demoRegX : List Channel := [⟨"x", "X", 10, false, none, "t"⟩]

/-- Presence in which socket `s` is already a member of channel `x`. -/
def demoRejoinPre : Presence := ⟨[("x", [⟨"s", "Alice", "t1"⟩])], [("s", "x")]⟩

/-- Presence in which socket `a` is a member of channel `x` and socket
`b` is not yet anywhere. -/
def demoFreshPre : Presence := ⟨[("x", [⟨"a", "A", "t0"⟩])], [("a", "x")]⟩

/- ## Association-list lemmas -/

theorem getAssoc_setAssoc_self {α : Type} (l : List (String × α)) (k : String) (v : α) :
    getAssoc (setAssoc l k v) k = some v := by
  induction l with
  | nil => simp [setAssoc, getAssoc]
  | cons p l ih =>
    by_cases h : p.1 = k
    · simp [setAssoc, getAssoc, h]
    · simp [setAssoc, getAssoc, h, ih]

theorem getAssoc_setAssoc_ne {α : Type} (l : List (String × α)) (k k' : String) (v : α)
    (h : k' ≠ k) : getAssoc (setAssoc l k v) k' = getAssoc l k' := by
  have h' : k ≠ k' := Ne.symm h
  induction l with
  | nil => simp [setAssoc, getAssoc, h']
  | cons p l ih =>
    by_cases hp : p.1 = k
    · have hpk' : p.1 ≠ k' := by rw [hp]; exact h'
      simp [setAssoc, getAssoc, hp, hpk', h']
    · simp [setAssoc, getAssoc, hp, ih]

theorem getAssoc_delAssoc_self {α : Type} (l : List (String × α)) (k : String) :
    getAssoc (delAssoc l k) k = none := by
  induction l with
  | nil => simp [delAssoc, getAssoc]
  | cons p l ih =>
    by_cases h : p.1 = k
    · simp [delAssoc, h, ih]
    · simp [delAssoc, getAssoc, h, ih]

theorem getAssoc_delAssoc_ne {α : Type} (l : List (String × α)) (k k' : String)
    (h : k' ≠ k) : getAssoc (delAssoc l k) k' = getAssoc l k' := by
  have h' : k ≠ k' := Ne.symm h
  induction l with
  | nil => simp [delAssoc]
  | cons p l ih =>
    by_cases hp : p.1 = k
    · have hpk' : p.1 ≠ k' := by rw [hp]; exact h'
      simp [delAssoc, getAssoc, hp, hpk', h', ih]
    · simp [delAssoc, getAssoc, hp, ih]

theorem setAssoc_setAssoc_same {α : Type} (l : List (String × α)) (k : String) (v w : α) :
    setAssoc (setAssoc l k v) k w = setAssoc l k w := by
  induction l with
  | nil => simp [setAssoc]
  | cons p l ih =>
    by_cases h : p.1 = k
    · simp [setAssoc, h]
    · simp [setAssoc, h, ih]

/-- Updating the member map of `cid` after `ensureMembers` is the same as
updating it directly. -/
theorem setAssoc_ensureMembers (cm : List (String × List Member)) (cid : String)
    (v : List Member) : setAssoc (ensureMembers cm cid) cid v = setAssoc cm cid v := by
  unfold ensureMembers
  cases h : getAssoc cm cid with
  | some ms => rfl
  | none => exact setAssoc_setAssoc_same cm cid [] v

/- ## Member-map lemmas -/

theorem hasMember_setMember_self (ms : List Member) (m : Member) :
    hasMember (setMember ms m) m.socketId = true := by
  induction ms with
  | nil => simp [setMember, hasMember]
  | cons x ms ih =>
    by_cases h : x.socketId = m.socketId
    · simp [setMember, hasMember, h]
    · simp only [hasMember] at ih
      simp [setMember, hasMember, h, List.any_cons, ih]

theorem hasMember_setMember_ne (ms : List Member) (m : Member) (sid : String)
    (h : sid ≠ m.socketId) :
    hasMember (setMember ms m) sid = hasMember ms sid := by
  have hms : (m.socketId == sid) = false := beq_eq_false_iff_ne.mpr (Ne.symm h)
  induction ms with
  | nil => simp [setMember, hasMember, hms]
  | cons x ms ih =>
    by_cases hx : x.socketId = m.socketId
    · have hxs : (x.socketId == sid) = false := by rw [hx]; exact hms
      simp [setMember, hasMember, hx, hxs, hms, List.any_cons]
    · simp only [hasMember] at ih
      simp [setMember, hasMember, hx, List.any_cons, ih]

/-- Removing the inserted key from `setMember ms m` gives the same list
as removing it from `ms`: the peer list built after the insertion equals
the prior members other than the joiner. -/
theorem filter_setMember (ms : List Member) (m : Member) :
    (setMember ms m).filter (fun x => !(x.socketId == m.socketId)) =
      ms.filter (fun x => !(x.socketId == m.socketId)) := by
  induction ms with
  | nil => simp [setMember]
  | cons x ms ih =>
    by_cases h : x.socketId = m.socketId
    · simp [setMember, h, List.filter_cons]
    · simp [setMember, h, List.filter_cons, beq_eq_false_iff_ne.mpr h, ih]

theorem hasMember_filter_self (ms : List Member) (sid : String) :
    hasMember (ms.filter (fun m => !(m.socketId == sid))) sid = false := by
  induction ms with
  | nil => simp [hasMember]
  | cons x ms ih =>
    by_cases h : x.socketId = sid
    · simp [List.filter_cons, h, ih]
    · simp only [hasMember] at ih
      simp [List.filter_cons, beq_eq_false_iff_ne.mpr h, hasMember, List.any_cons, ih]

theorem hasMember_of_filter (ms : List Member) (p : Member → Bool) (sid : String)
    (h : hasMember (ms.filter p) sid = true) : hasMember ms sid = true := by
  simp only [hasMember, List.any_eq_true] at h ⊢
  obtain ⟨m, hm, hbeq⟩ := h
  exact ⟨m, (List.mem_filter.mp hm).1, hbeq⟩

/- ## Registry lemmas -/

theorem maxKeyLen_cons (t : String) (ts : List String) :
    maxKeyLen (t :: ts) = max t.length (maxKeyLen ts) := rfl

theorem mem_length_le_maxKeyLen (s : String) (taken : List String) (h : s ∈ taken) :
    s.length ≤ maxKeyLen taken := by
  induction taken with
  | nil => cases h
  | cons t ts ih =>
    rw [maxKeyLen_cons]
    rcases List.mem_cons.mp h with h | h
    · rw [h]; exact le_max_left _ _
    · exact le_max_of_le_right (ih h)

theorem freshIdAux_not_mem (taken : List String) (rands : Nat → String) :
    ∀ (fuel : Nat) (id : String) (k : Nat),
      maxKeyLen taken + 1 ≤ fuel + id.length →
      freshIdAux taken rands fuel id k ∉ taken := by
  intro fuel
  induction fuel with
  | zero =>
    intro id k h hmem
    have := mem_length_le_maxKeyLen id taken hmem
    simp only [Nat.zero_add] at h
    omega
  | succ fuel ih =>
    intro id k h
    by_cases hmem : id ∈ taken
    · simp only [freshIdAux, if_pos hmem]
      apply ih
      have hdash : ("-" : String).length = 1 := rfl
      have hlen : (id ++ "-" ++ rands k).length = id.length + 1 + (rands k).length := by
        simp [String.length_append, hdash]
      omega
    · simpa [freshIdAux, if_neg hmem] using hmem

theorem freshId_not_mem (taken : List String) (rands : Nat → String) (id0 : String) :
    freshId taken rands id0 ∉ taken := by
  apply freshIdAux_not_mem
  omega

theorem setChannel_of_not_mem (reg : List Channel) (c : Channel)
    (h : c.id ∉ regIds reg) : setChannel reg c = reg ++ [c] := by
  induction reg with
  | nil => simp [setChannel]
  | cons x reg ih =>
    simp only [regIds, List.map_cons, List.mem_cons, not_or] at h
    have hx : x.id ≠ c.id := fun e => h.1 e.symm
    simp [setChannel, hx, ih (by simpa [regIds] using h.2)]

theorem recToChan_chanToRec (now : String) (c : Channel) (h : ChannelWF c) :
    recToChan now (chanToRec c) = some c := by
  obtain ⟨h1, h2, h3, h4, h5⟩ := h
  cases c with
  | mk cid cname cmax chp cpw cca =>
    simp only at h1 h2 h3 h4 h5
    cases cpw with
    | none => simp [recToChan, chanToRec, h1, h2, h3, h4]
    | some s =>
      have hs : s ≠ "" := fun e => h5 (by rw [e])
      simp [recToChan, chanToRec, h1, h2, h3, h4, hs]

/- ## Presence-invariant preservation -/

theorem presenceInv_ensure (pre : Presence) (cid : String) (hinv : PresenceInv pre) :
    PresenceInv ⟨ensureMembers pre.channelMembers cid, pre.socketChannelMap⟩ := by
  intro s c hmem
  simp only [memberOf, ensureMembers] at hmem
  cases hg : getAssoc pre.channelMembers cid with
  | some ms => rw [hg] at hmem; exact hinv s c hmem
  | none =>
    rw [hg] at hmem
    by_cases hc : c = cid
    · subst hc
      rw [getAssoc_setAssoc_self] at hmem
      simp [hasMember] at hmem
    · rw [getAssoc_setAssoc_ne _ _ _ _ hc] at hmem
      exact hinv s c hmem

theorem presenceInv_admit (pre : Presence) (cid sid : String) (m : Member)
    (hm : m.socketId = sid)
    (hinv : PresenceInv pre) (hnone : getAssoc pre.socketChannelMap sid = none) :
    PresenceInv
      ⟨setAssoc pre.channelMembers cid
        (setMember ((getAssoc pre.channelMembers cid).getD []) m),
       setAssoc pre.socketChannelMap sid cid⟩ := by
  intro s c hmem
  simp only [memberOf] at hmem
  by_cases hc : c = cid
  · rw [hc, getAssoc_setAssoc_self, Option.getD_some] at hmem
    by_cases hs : s = sid
    · show getAssoc (setAssoc pre.socketChannelMap sid cid) s = some c
      rw [hs, hc]
      exact getAssoc_setAssoc_self _ _ _
    · have hsm : s ≠ m.socketId := by rw [hm]; exact hs
      rw [hasMember_setMember_ne _ _ _ hsm] at hmem
      have h1 : memberOf pre cid s = true := hmem
      have h2 := hinv s cid h1
      show getAssoc (setAssoc pre.socketChannelMap sid cid) s = some c
      rw [getAssoc_setAssoc_ne _ _ _ _ hs, hc]
      exact h2
  · rw [getAssoc_setAssoc_ne _ _ _ _ hc] at hmem
    have h1 : memberOf pre c s = true := hmem
    have h2 := hinv s c h1
    by_cases hs : s = sid
    · rw [hs, hnone] at h2
      cases h2
    · show getAssoc (setAssoc pre.socketChannelMap sid cid) s = some c
      rw [getAssoc_setAssoc_ne _ _ _ _ hs]
      exact h2

theorem joinRoom_preserves_inv (cfg : Config) (reg : List Channel) (pre : Presence)
    (sid : String) (roomId userName password : Option String) (now : String)
    (hinv : PresenceInv pre) (hnone : getAssoc pre.socketChannelMap sid = none) :
    PresenceInv (joinRoom cfg reg pre sid roomId userName password now).state := by
  unfold joinRoom
  by_cases h0 : jsTrim (roomId.getD "") = ""
  · simpa [h0] using hinv
  · rw [if_neg h0]
    cases hg : getChannel reg (jsTrim (roomId.getD "")) with
    | none => exact hinv
    | some channel =>
      simp only []
      split
      · exact presenceInv_ensure pre _ hinv
      · split
        · exact presenceInv_ensure pre _ hinv
        · show PresenceInv ⟨setAssoc (ensureMembers pre.channelMembers _) _ _, _⟩
          rw [setAssoc_ensureMembers]
          exact presenceInv_admit pre _ sid _ rfl hinv hnone

theorem presenceInv_del_reverse (pre : Presence) (sid channelId : String)
    (hch : getAssoc pre.socketChannelMap sid = some channelId)
    (hnot : memberOf pre channelId sid = false)
    (hinv : PresenceInv pre) :
    PresenceInv ⟨pre.channelMembers, delAssoc pre.socketChannelMap sid⟩ := by
  intro s c hmem
  have h1 : memberOf pre c s = true := hmem
  by_cases hs : s = sid
  · exfalso
    have h2 := hinv s c h1
    rw [hs, hch] at h2
    have hcc : channelId = c := Option.some.inj h2
    rw [← hcc, hs] at h1
    rw [h1] at hnot
    simp at hnot
  · show getAssoc (delAssoc pre.socketChannelMap sid) s = some c
    rw [getAssoc_delAssoc_ne _ _ _ hs]
    exact hinv s c h1

theorem presenceInv_remove_member (pre : Presence) (sid channelId : String) (ms : List Member)
    (hch : getAssoc pre.socketChannelMap sid = some channelId)
    (hms : getAssoc pre.channelMembers channelId = some ms)
    (hinv : PresenceInv pre) :
    PresenceInv
      ⟨setAssoc pre.channelMembers channelId (ms.filter (fun m => !(m.socketId == sid))),
       delAssoc pre.socketChannelMap sid⟩ := by
  intro s c hmem
  simp only [memberOf] at hmem
  by_cases hc : c = channelId
  · rw [hc, getAssoc_setAssoc_self, Option.getD_some] at hmem
    by_cases hs : s = sid
    · rw [hs, hasMember_filter_self] at hmem
      simp at hmem
    · have h1 : hasMember ms s = true := hasMember_of_filter _ _ _ hmem
      have h2 : memberOf pre channelId s = true := by
        simp [memberOf, hms, h1]
      show getAssoc (delAssoc pre.socketChannelMap sid) s = some c
      rw [getAssoc_delAssoc_ne _ _ _ hs, hc]
      exact hinv s channelId h2
  · rw [getAssoc_setAssoc_ne _ _ _ _ hc] at hmem
    have h1 : memberOf pre c s = true := hmem
    have h2 := hinv s c h1
    by_cases hs : s = sid
    · rw [hs, hch] at h2
      exact absurd (Option.some.inj h2) fun e => hc e.symm
    · show getAssoc (delAssoc pre.socketChannelMap sid) s = some c
      rw [getAssoc_delAssoc_ne _ _ _ hs]
      exact h2

theorem presenceInv_del_channel (pre : Presence) (sid channelId : String)
    (hch : getAssoc pre.socketChannelMap sid = some channelId)
    (hinv : PresenceInv pre) :
    PresenceInv ⟨delAssoc pre.channelMembers channelId, delAssoc pre.socketChannelMap sid⟩ := by
  intro s c hmem
  simp only [memberOf] at hmem
  by_cases hc : c = channelId
  · rw [hc, getAssoc_delAssoc_self] at hmem
    simp [hasMember] at hmem
  · rw [getAssoc_delAssoc_ne _ _ _ hc] at hmem
    have h1 : memberOf pre c s = true := hmem
    have h2 := hinv s c h1
    by_cases hs : s = sid
    · rw [hs, hch] at h2
      exact absurd (Option.some.inj h2) fun e => hc e.symm
    · show getAssoc (delAssoc pre.socketChannelMap sid) s = some c
      rw [getAssoc_delAssoc_ne _ _ _ hs]
      exact h2

theorem disconnect_preserves_inv (pre : Presence) (sid : String)
    (hinv : PresenceInv pre) : PresenceInv (disconnect pre sid).state := by
  unfold disconnect
  cases hch : getAssoc pre.socketChannelMap sid with
  | none => exact hinv
  | some channelId =>
    simp only []
    split
    · rename_i members hms
      split
      · split
        · exact presenceInv_del_channel pre sid channelId hch hinv
        · exact presenceInv_remove_member pre sid channelId members hch hms hinv
      · rename_i hhas
        exact presenceInv_del_reverse pre sid channelId hch
          (by simp only [memberOf, hms, Option.getD_some]
              exact eq_false_of_ne_true hhas) hinv
    · rename_i hms
      exact presenceInv_del_reverse pre sid channelId hch
        (by simp [memberOf, hms, hasMember]) hinv

/- ## Snapshot lemmas -/

theorem matchMembers_eq (o : Option (List Member)) (f : Member → PublicUser) :
    (match o with
      | some members => members.map f
      | none => []) = (o.getD []).map f := by
  cases o <;> rfl

theorem getAssoc_ensure_getD (cm : List (String × List Member)) (cid k : String) :
    (getAssoc (ensureMembers cm cid) k).getD [] = (getAssoc cm k).getD [] := by
  unfold ensureMembers
  cases hg : getAssoc cm cid with
  | some ms => rfl
  | none =>
    by_cases hc : k = cid
    · rw [hc, getAssoc_setAssoc_self, hg]
      rfl
    · rw [getAssoc_setAssoc_ne _ _ _ _ hc]

theorem buildChannelsState_ensure (reg : List Channel) (cm : List (String × List Member))
    (scm scm' : List (String × String)) (cid : String) :
    buildChannelsState reg ⟨ensureMembers cm cid, scm⟩ = buildChannelsState reg ⟨cm, scm'⟩ := by
  unfold buildChannelsState
  simp only [matchMembers_eq, getAssoc_ensure_getD]

/- ## Persistence round-trip -/

theorem loadChannels_foldl (now : String) :
    ∀ (l acc : List Channel),
      (∀ c ∈ l, ChannelWF c) → (regIds l).Nodup →
      (∀ c ∈ l, c.id ∉ regIds acc) →
      (l.map chanToRec).foldl
        (fun reg r =>
          match recToChan now r with
          | some c => setChannel reg c
          | none => reg) acc
      = acc ++ l := by
  intro l
  induction l with
  | nil => intro acc _ _ _; simp
  | cons c l ih =>
    intro acc hwf hnodup hdisj
    simp only [List.map_cons, List.foldl_cons]
    rw [recToChan_chanToRec now c (hwf c (by simp))]
    have hstep : (match some c with
        | some c => setChannel acc c
        | none => acc) = setChannel acc c := rfl
    rw [hstep, setChannel_of_not_mem acc c (hdisj c (by simp))]
    have hpair : (∀ x ∈ l, ¬x.id = c.id) ∧ (List.map (fun x => x.id) l).Nodup := by
      simpa [regIds] using hnodup
    have hnd : (regIds l).Nodup := hpair.2
    have hdisj' : ∀ x ∈ l, x.id ∉ regIds (acc ++ [c]) := by
      intro x hx
      simp only [regIds, List.map_append, List.mem_append, List.map_cons, List.map_nil,
        List.mem_singleton, not_or]
      constructor
      · have := hdisj x (List.mem_cons_of_mem _ hx)
        simpa [regIds] using this
      · intro hxe
        exact hpair.1 x hx hxe
    rw [ih (acc ++ [c]) (fun x hx => hwf x (List.mem_cons_of_mem _ hx)) hnd hdisj']
    simp

/- ## Create-call characterization -/

theorem createChannel_ok_eq (p : CreateParams) (st : Store) (rands : Nat → String)
    (now : String) (h : jsTrim (p.name.getD "") ≠ "") :
    createChannel p st rands now true =
      (.ok (mkCreatedChannel p st rands now),
       ⟨setChannel st.channels (mkCreatedChannel p st rands now),
        saveChannelsToDisk (setChannel st.channels (mkCreatedChannel p st rands now))⟩) := by
  unfold createChannel
  rw [if_neg h]
  rfl

theorem createChannel_fail_eq (p : CreateParams) (st : Store) (rands : Nat → String)
    (now : String) (h : jsTrim (p.name.getD "") ≠ "") :
    createChannel p st rands now false =
      (.error .persistFailure,
       ⟨setChannel st.channels (mkCreatedChannel p st rands now), st.disk⟩) := by
  unfold createChannel
  rw [if_neg h]
  rfl

theorem mkCreatedChannel_id (p : CreateParams) (st : Store) (rands : Nat → String)
    (now : String) :
    (mkCreatedChannel p st rands now).id =
      freshId (regIds st.channels) rands (slugify (jsTrim (p.name.getD "")) (rands 0)) := rfl

theorem mkCreatedChannel_not_mem (p : CreateParams) (st : Store) (rands : Nat → String)
    (now : String) : (mkCreatedChannel p st rands now).id ∉ regIds st.channels := by
  rw [mkCreatedChannel_id]
  exact freshId_not_mem _ _ _

theorem regIds_append (reg : List Channel) (c : Channel) :
    regIds (reg ++ [c]) = regIds reg ++ [c.id] := by
  simp [regIds]

theorem nodup_append_singleton {α : Type} (l : List α) (a : α) (hl : l.Nodup)
    (ha : a ∉ l) : (l ++ [a]).Nodup := by
  rw [List.nodup_append]
  refine ⟨hl, List.nodup_singleton a, ?_⟩
  intro x hx hxa
  rw [List.mem_singleton] at hxa
  exact ha (hxa ▸ hx)

/- ## Peer-list helpers specialized to the joiner's socket id -/

theorem filter_setMember_sid (ms : List Member) (sid nm ja : String) :
    (setMember ms ⟨sid, nm, ja⟩).filter (fun x => !(x.socketId == sid)) =
      ms.filter (fun x => !(x.socketId == sid)) :=
  filter_setMember ms ⟨sid, nm, ja⟩

theorem hasMember_setMember_sid (ms : List Member) (sid nm ja : String) :
    hasMember (setMember ms ⟨sid, nm, ja⟩) sid = true :=
  hasMember_setMember_self ms ⟨sid, nm, ja⟩

theorem filter_eq_self_of_not_member (ms : List Member) (sid : String)
    (h : hasMember ms sid = false) :
    ms.filter (fun m => !(m.socketId == sid)) = ms := by
  induction ms with
  | nil => rfl
  | cons x ms ih =>
    simp only [hasMember, List.any_cons, Bool.or_eq_false_iff] at h
    simp only [hasMember] at ih
    simp [List.filter_cons, h.1, ih h.2]

/- ## Claim theorems -/

/-- Claim C6: for every name that is absent, empty or whitespace-only,
`createChannel` fails with `NAME_REQUIRED` and returns with the registry
state (in-memory map and persisted store) completely unchanged. -/
theorem createChannel_empty_name_rejected (p : CreateParams) (st : Store)
    (rands : Nat → String) (now : String) (writeOk : Bool)
    (h : jsTrim (p.name.getD "") = "") :
    createChannel p st rands now writeOk = (.error .nameRequired, st) := by
  unfold createChannel
  rw [if_pos h]

/-- Witness for C6 at the whitespace-only name `"   "`. -/
theorem createChannel_empty_name_rejected_witness :
    createChannel ⟨some "   ", none, none⟩ ⟨[], []⟩ (fun _ => "r") "t0" true
      = (.error .nameRequired, ⟨[], []⟩) :=
  createChannel_empty_name_rejected ⟨some "   ", none, none⟩ ⟨[], []⟩
    (fun _ => "r") "t0" true (by decide)

/-- Claim C5: a create call keeps the registry ids pairwise distinct, and
the id it mints (slug plus collision suffixes) is fresh with respect to
every id already in the registry. -/
theorem createChannel_ids_distinct (p : CreateParams) (st : Store)
    (rands : Nat → String) (now : String) (writeOk : Bool)
    (hnodup : (regIds st.channels).Nodup) :
    (regIds (createChannel p st rands now writeOk).2.channels).Nodup ∧
    (mkCreatedChannel p st rands now).id ∉ regIds st.channels := by
  refine ⟨?_, mkCreatedChannel_not_mem p st rands now⟩
  unfold createChannel
  by_cases h : jsTrim (p.name.getD "") = ""
  · rw [if_pos h]
    exact hnodup
  · rw [if_neg h]
    have hfresh := mkCreatedChannel_not_mem p st rands now
    have hreg : regIds (setChannel st.channels (mkCreatedChannel p st rands now))
        = regIds st.channels ++ [(mkCreatedChannel p st rands now).id] := by
      rw [setChannel_of_not_mem _ _ hfresh, regIds_append]
    cases writeOk with
    | true =>
      show (regIds (setChannel st.channels (mkCreatedChannel p st rands now))).Nodup
      rw [hreg]
      exact nodup_append_singleton _ _ hnodup hfresh
    | false =>
      show (regIds (setChannel st.channels (mkCreatedChannel p st rands now))).Nodup
      rw [hreg]
      exact nodup_append_singleton _ _ hnodup hfresh

/-- Witness for C5: creating a channel whose name slugifies to an id that
is already taken (`general`) still yields pairwise distinct ids. -/
theorem createChannel_ids_distinct_witness :
    (regIds (createChannel ⟨some "General", none, none⟩
        ⟨[⟨"general", "Old", 10, false, none, "t"⟩], []⟩
        (fun _ => "r") "t1" true).2.channels).Nodup ∧
    (mkCreatedChannel ⟨some "General", none, none⟩
        ⟨[⟨"general", "Old", 10, false, none, "t"⟩], []⟩ (fun _ => "r") "t1").id
      ∉ regIds (Store.mk [⟨"general", "Old", 10, false, none, "t"⟩] []).channels :=
  createChannel_ids_distinct ⟨some "General", none, none⟩
    ⟨[⟨"general", "Old", 10, false, none, "t"⟩], []⟩ (fun _ => "r") "t1" true (by decide)

/-- Claim C3 (counterexample): when the persistence write fails, the error
does propagate, but the in-memory registry is *not* left unchanged — the
new channel was inserted into the map before the write, so it exists in
memory (`channels` nonempty) without having been durably recorded
(`disk` still empty). -/
theorem createChannel_write_failure_keeps_memory :
    (createChannel ⟨some "General", none, none⟩ ⟨[], []⟩ (fun _ => "r") "t0" false).1
        = .error .persistFailure ∧
    (createChannel ⟨some "General", none, none⟩ ⟨[], []⟩ (fun _ => "r") "t0" false).2.channels
        = [⟨"general", "General", 10, false, none, "t0"⟩] ∧
    (createChannel ⟨some "General", none, none⟩ ⟨[], []⟩ (fun _ => "r") "t0" false).2.disk
        = [] ∧
    [(⟨"general", "General", 10, false, none, "t0"⟩ : Channel)] ≠ ([] : List Channel) := by
  decide

/-- Claim C3 (amended): if the synchronous persistence write fails during
`createChannel`, the failure propagates to the caller (`persistFailure`
from the store; status 500 `INTERNAL_ERROR` from the POST handler) and
the backing store is unchanged, but the in-memory registry retains the
newly inserted channel — memory is mutated before the disk write. -/
theorem createChannel_persist_failure_propagates (p : CreateParams) (st : Store)
    (rands : Nat → String) (now : String) (h : jsTrim (p.name.getD "") ≠ "") :
    (createChannel p st rands now false).1 = .error .persistFailure ∧
    (postChannels p st rands now false).1 = 500 ∧
    (createChannel p st rands now false).2.disk = st.disk ∧
    (createChannel p st rands now false).2.channels
      = setChannel st.channels (mkCreatedChannel p st rands now) := by
  have hc := createChannel_fail_eq p st rands now h
  refine ⟨by rw [hc], ?_, by rw [hc], by rw [hc]⟩
  unfold postChannels
  rw [hc]

/-- Witness for C3 (amended) at a concrete failing create call. -/
theorem createChannel_persist_failure_propagates_witness :
    (createChannel ⟨some "Room", none, none⟩ ⟨[], []⟩ (fun _ => "r") "t1" false).1
        = .error .persistFailure ∧
    (postChannels ⟨some "Room", none, none⟩ ⟨[], []⟩ (fun _ => "r") "t1" false).1 = 500 ∧
    (createChannel ⟨some "Room", none, none⟩ ⟨[], []⟩ (fun _ => "r") "t1" false).2.disk
        = (Store.mk [] []).disk ∧
    (createChannel ⟨some "Room", none, none⟩ ⟨[], []⟩ (fun _ => "r") "t1" false).2.channels
        = setChannel (Store.mk [] []).channels
            (mkCreatedChannel ⟨some "Room", none, none⟩ ⟨[], []⟩ (fun _ => "r") "t1") :=
  createChannel_persist_failure_propagates ⟨some "Room", none, none⟩ ⟨[], []⟩
    (fun _ => "r") "t1" (by decide)

/-- The configuration with `MAX_ROOM_USERS` set to 5 used to refute C4. -/
def cfgFive : Config := ⟨3000, 5, ["*"]⟩

/-- Claim C4 (counterexample): with the process-wide default capacity
configured to 5, a create call with absent capacity still produces a
channel of capacity 10 — the hard-coded literal in `createChannel`, not
the configured `maxRoomUsers`. -/
theorem createChannel_default_ignores_config :
    cfgFive.maxRoomUsers = 5 ∧
    (createChannel ⟨some "General", none, none⟩ ⟨[], []⟩ (fun _ => "r") "t0" true).1
      = .ok ⟨"general", "General", 10, false, none, "t0"⟩ ∧
    (10 : Int) ≠ cfgFive.maxRoomUsers := by
  decide

/-- Claim C4 (amended): for every create call whose capacity argument is
absent or non-positive, the created channel's capacity equals the
literal constant 10 (which coincides with the configured default only
when `MAX_ROOM_USERS` is itself 10). -/
theorem createChannel_default_capacity_ten (p : CreateParams) (st : Store)
    (rands : Nat → String) (now : String) (writeOk : Bool) (ch : Channel)
    (hok : (createChannel p st rands now writeOk).1 = .ok ch)
    (hcap : p.maxUsers = none ∨ ∃ n, p.maxUsers = some n ∧ n ≤ 0) :
    ch.maxUsers = 10 := by
  unfold createChannel at hok
  by_cases h : jsTrim (p.name.getD "") = ""
  · rw [if_pos h] at hok
    simp at hok
  · rw [if_neg h] at hok
    cases writeOk with
    | false => simp at hok
    | true =>
      have hch : mkCreatedChannel p st rands now = ch := by simpa using hok
      rw [← hch]
      rcases hcap with hn | ⟨n, hn, hle⟩
      · simp [mkCreatedChannel, hn]
      · simp only [mkCreatedChannel, hn]
        rw [if_neg (by omega)]

/-- Witness for C4 (amended): capacity argument `-3` defaults to 10. -/
theorem createChannel_default_capacity_ten_witness :
    (mkCreatedChannel ⟨some "General", some (-3), none⟩ ⟨[], []⟩
      (fun _ => "r") "t0").maxUsers = 10 :=
  createChannel_default_capacity_ten ⟨some "General", some (-3), none⟩ ⟨[], []⟩
    (fun _ => "r") "t0" true _ rfl (Or.inr ⟨-3, rfl, by decide⟩)

/-- Claim C7: serializing the registry to the backing store and reloading
it from scratch reproduces the identical channel list — ids, names,
capacities, password flags and password secrets included — for every
registry state satisfying the shape invariant every reachable registry
has (nonempty ids and names, nonzero capacity, nonempty timestamp,
absent-or-nonempty secret, distinct ids). -/
theorem registry_roundtrip (reg : List Channel) (now : String)
    (hwf : ∀ c ∈ reg, ChannelWF c) (hnodup : (regIds reg).Nodup) :
    loadChannelsFromDisk now (saveChannelsToDisk reg) = reg := by
  unfold loadChannelsFromDisk
  have := loadChannels_foldl now reg [] hwf hnodup (by intro c _; simp [regIds])
  simpa using this

/-- Witness for C7 on a two-channel registry with a password-protected
channel. -/
theorem registry_roundtrip_witness :
    loadChannelsFromDisk "N" (saveChannelsToDisk
        [⟨"general", "Общий", 10, false, none, "t1"⟩,
         ⟨"sec", "Secret", 5, true, some "pw", "t2"⟩])
      = [⟨"general", "Общий", 10, false, none, "t1"⟩,
         ⟨"sec", "Secret", 5, true, some "pw", "t2"⟩] :=
  registry_roundtrip _ "N" (by decide) (by decide)

/-- Claim C1: the join-room admission checks run in the order existence,
then capacity, then password: a request naming an existing channel at
its effective capacity is rejected `ROOM_FULL` whatever password was
supplied; `CHANNEL_NOT_FOUND` is only reported when the registry has no
such channel; and `WRONG_PASSWORD` is only ever reported for an
existing, non-full, password-protected channel. -/
theorem join_admission_check_order (cfg : Config) (reg : List Channel) (pre : Presence)
    (sid : String) (roomId userName password : Option String) (now : String) :
    (jsTrim (roomId.getD "") ≠ "" →
      ∀ ch, getChannel reg (jsTrim (roomId.getD "")) = some ch →
        effectiveCap cfg ch ≤
          (((getAssoc pre.channelMembers (jsTrim (roomId.getD ""))).getD []).length : Int) →
        (joinRoom cfg reg pre sid roomId userName password now).outcome
          = .rejected "ROOM_FULL") ∧
    ((joinRoom cfg reg pre sid roomId userName password now).outcome
        = .rejected "CHANNEL_NOT_FOUND" →
      getChannel reg (jsTrim (roomId.getD "")) = none) ∧
    ((joinRoom cfg reg pre sid roomId userName password now).outcome
        = .rejected "WRONG_PASSWORD" →
      ∃ ch, getChannel reg (jsTrim (roomId.getD "")) = some ch ∧
        ch.hasPassword = true ∧
        (((getAssoc pre.channelMembers (jsTrim (roomId.getD ""))).getD []).length : Int)
          < effectiveCap cfg ch) := by
  refine ⟨?_, ?_, ?_⟩
  · intro hne ch hch hfull
    unfold joinRoom
    rw [if_neg hne]
    split
    · rename_i heq
      rw [hch] at heq
      cases heq
    · rename_i channel heq
      have hcc : channel = ch := by
        rw [hch] at heq
        exact (Option.some.inj heq).symm
      subst hcc
      simp only []
      split
      · rfl
      · rename_i hnot
        exact absurd hfull hnot
  · unfold joinRoom
    by_cases h0 : jsTrim (roomId.getD "") = ""
    · rw [if_pos h0]
      intro h
      simp at h
    · rw [if_neg h0]
      split
      · rename_i heq
        intro _
        exact heq
      · rename_i channel heq
        simp only []
        split
        · intro h
          simp at h
        · split
          · intro h
            simp at h
          · intro h
            simp at h
  · unfold joinRoom
    by_cases h0 : jsTrim (roomId.getD "") = ""
    · rw [if_pos h0]
      intro h
      simp at h
    · rw [if_neg h0]
      split
      · intro h
        simp at h
      · rename_i channel heq
        simp only []
        split
        · intro h
          simp at h
        · split
          · rename_i hnotfull hpw
            intro _
            exact ⟨channel, heq, hpw.1, not_le.mp hnotfull⟩
          · intro h
            simp at h

/-- Witness for C1: a full password-protected channel rejects a joiner
carrying a wrong password with `ROOM_FULL`, not `WRONG_PASSWORD`. -/
theorem join_admission_check_order_witness :
    (joinRoom ⟨3000, 10, ["*"]⟩ [⟨"g", "G", 1, true, some "pw", "t"⟩]
        ⟨[("g", [⟨"a", "A", "t"⟩])], [("a", "g")]⟩
        "b" (some "g") (some "B") (some "bad") "t2").outcome = .rejected "ROOM_FULL" :=
  (join_admission_check_order ⟨3000, 10, ["*"]⟩ [⟨"g", "G", 1, true, some "pw", "t"⟩]
      ⟨[("g", [⟨"a", "A", "t"⟩])], [("a", "g")]⟩
      "b" (some "g") (some "B") (some "bad") "t2").1
    (by decide) ⟨"g", "G", 1, true, some "pw", "t"⟩ (by decide) (by decide)

/-- Claim C10: every rejected join-room request fires no channels-state
broadcast and leaves the public snapshot unchanged — even though a
rejection can insert an empty member map for the channel into the
presence table. -/
theorem rejected_join_frame (cfg : Config) (reg : List Channel) (pre : Presence)
    (sid : String) (roomId userName password : Option String) (now : String)
    (code : String)
    (h : (joinRoom cfg reg pre sid roomId userName password now).outcome
      = .rejected code) :
    (joinRoom cfg reg pre sid roomId userName password now).broadcast = false ∧
    buildChannelsState reg (joinRoom cfg reg pre sid roomId userName password now).state
      = buildChannelsState reg pre := by
  revert h
  unfold joinRoom
  by_cases h0 : jsTrim (roomId.getD "") = ""
  · rw [if_pos h0]
    intro h
    simp at h
  · rw [if_neg h0]
    split
    · intro _
      exact ⟨rfl, rfl⟩
    · rename_i channel heq
      simp only []
      split
      · intro _
        exact ⟨rfl, buildChannelsState_ensure reg pre.channelMembers
          pre.socketChannelMap pre.socketChannelMap _⟩
      · split
        · intro _
          exact ⟨rfl, buildChannelsState_ensure reg pre.channelMembers
            pre.socketChannelMap pre.socketChannelMap _⟩
        · intro h
          simp at h

/-- Witness for C10: a wrong-password rejection against an empty
password-protected channel fires no broadcast and leaves the snapshot
unchanged (although it inserts an empty member map). -/
theorem rejected_join_frame_witness :
    (joinRoom ⟨3000, 10, ["*"]⟩ [⟨"p", "P", 5, true, some "pw", "t"⟩] ⟨[], []⟩
        "b" (some "p") (some "B") (some "bad") "t2").broadcast = false ∧
    buildChannelsState [⟨"p", "P", 5, true, some "pw", "t"⟩]
        (joinRoom ⟨3000, 10, ["*"]⟩ [⟨"p", "P", 5, true, some "pw", "t"⟩] ⟨[], []⟩
          "b" (some "p") (some "B") (some "bad") "t2").state
      = buildChannelsState [⟨"p", "P", 5, true, some "pw", "t"⟩] ⟨[], []⟩ :=
  rejected_join_frame ⟨3000, 10, ["*"]⟩ [⟨"p", "P", 5, true, some "pw", "t"⟩] ⟨[], []⟩
    "b" (some "p") (some "B") (some "bad") "t2" "WRONG_PASSWORD" (by decide)

/-- Claim C8 (counterexample): a socket already in a channel that rejoins
the same channel is re-admitted with an *empty* peer list, although the
channel's member set before this insertion contained the joiner itself —
so the peer list is not the set of members present before the insertion. -/
theorem rejoin_peer_list_counterexample :
    (joinRoom ⟨3000, 10, ["*"]⟩ demoRegX demoRejoinPre
        "s" (some "x") (some "Alice") none "t2").outcome = .admitted [] 10 ∧
    ((getAssoc demoRejoinPre.channelMembers "x").getD []).map
        (fun m => PeerInfo.mk m.socketId m.name) = [⟨"s", "Alice"⟩] ∧
    ([] : List PeerInfo) ≠ [(⟨"s", "Alice"⟩ : PeerInfo)] := by
  decide

/-- Claim C8 (amended): on every successful admission the joiner is
inserted into the presence table under the channel id and the reverse
mapping is recorded; the peer list returned is exactly the members
present before the insertion *other than the joiner itself* — which is
the full prior member set whenever the joiner was not already in the
channel. -/
theorem admitted_peer_list_spec (cfg : Config) (reg : List Channel) (pre : Presence)
    (sid : String) (roomId userName password : Option String) (now : String)
    (others : List PeerInfo) (mx : Int)
    (h : (joinRoom cfg reg pre sid roomId userName password now).outcome
      = .admitted others mx) :
    others = (((getAssoc pre.channelMembers (jsTrim (roomId.getD ""))).getD []).filter
        (fun m => !(m.socketId == sid))).map (fun m => PeerInfo.mk m.socketId m.name) ∧
    memberOf (joinRoom cfg reg pre sid roomId userName password now).state
      (jsTrim (roomId.getD "")) sid = true ∧
    getAssoc (joinRoom cfg reg pre sid roomId userName password now).state.socketChannelMap
      sid = some (jsTrim (roomId.getD "")) ∧
    (hasMember ((getAssoc pre.channelMembers (jsTrim (roomId.getD ""))).getD []) sid
        = false →
      others = ((getAssoc pre.channelMembers (jsTrim (roomId.getD ""))).getD []).map
        (fun m => PeerInfo.mk m.socketId m.name)) := by
  revert h
  unfold joinRoom
  by_cases h0 : jsTrim (roomId.getD "") = ""
  · rw [if_pos h0]
    intro h
    simp at h
  · rw [if_neg h0]
    split
    · intro h
      simp at h
    · rename_i channel heq
      simp only []
      split
      · intro h
        simp at h
      · split
        · intro h
          simp at h
        · intro h
          have hoth : ((setMember ((getAssoc pre.channelMembers
                (jsTrim (roomId.getD ""))).getD [])
                ⟨sid, if userName.getD "" = "" then "Без имени" else userName.getD "",
                  now⟩).filter (fun m => !(m.socketId == sid))).map
                (fun m => PeerInfo.mk m.socketId m.name) = others := by
            have := h
            simp only [JoinOutcome.admitted.injEq] at this
            exact this.1
          refine ⟨?_, ?_, ?_, ?_⟩
          · rw [← hoth, filter_setMember_sid]
          · show memberOf ⟨setAssoc (ensureMembers pre.channelMembers
              (jsTrim (roomId.getD ""))) (jsTrim (roomId.getD "")) _, _⟩ _ _ = true
            simp only [memberOf, setAssoc_ensureMembers, getAssoc_setAssoc_self,
              Option.getD_some]
            exact hasMember_setMember_sid _ _ _ _
          · exact getAssoc_setAssoc_self _ _ _
          · intro hno
            rw [← hoth, filter_setMember_sid, filter_eq_self_of_not_member _ _ hno]

/-- Witness for C8 (amended): socket `b` joins channel `x` where socket
`a` is present; the peer list is `[a]`, the presence table and reverse
map record `b`, and since `b` was not a member before, the peer list is
the full prior member set. -/
theorem admitted_peer_list_spec_witness :
    [(⟨"a", "A"⟩ : PeerInfo)]
      = (((getAssoc demoFreshPre.channelMembers
            (jsTrim ((some "x" : Option String).getD ""))).getD []).filter
          (fun m => !(m.socketId == "b"))).map (fun m => PeerInfo.mk m.socketId m.name) ∧
    memberOf (joinRoom ⟨3000, 10, ["*"]⟩ demoRegX demoFreshPre
        "b" (some "x") (some "Bob") none "t2").state
      (jsTrim ((some "x" : Option String).getD "")) "b" = true ∧
    getAssoc (joinRoom ⟨3000, 10, ["*"]⟩ demoRegX demoFreshPre
        "b" (some "x") (some "Bob") none "t2").state.socketChannelMap
      "b" = some (jsTrim ((some "x" : Option String).getD "")) ∧
    (hasMember ((getAssoc demoFreshPre.channelMembers
        (jsTrim ((some "x" : Option String).getD ""))).getD []) "b" = false →
      [(⟨"a", "A"⟩ : PeerInfo)]
        = ((getAssoc demoFreshPre.channelMembers
            (jsTrim ((some "x" : Option String).getD ""))).getD []).map
          (fun m => PeerInfo.mk m.socketId m.name)) :=
  admitted_peer_list_spec ⟨3000, 10, ["*"]⟩ demoRegX demoFreshPre
    "b" (some "x") (some "Bob") none "t2" [⟨"a", "A"⟩] 10 (by decide)

/-- Claim C2 (counterexample): a connection already in channel `x` that
successfully joins channel `y` remains listed in `x`'s member set while
also being listed in `y`'s — it belongs to two channels at once, and the
reverse map records only `y`. -/
theorem join_second_channel_counterexample :
    memberOf demoDoubleJoin "x" "s" = true ∧
    memberOf demoDoubleJoin "y" "s" = true ∧
    getAssoc demoDoubleJoin.socketChannelMap "s" = some "y" ∧
    ("x" : String) ≠ "y" := by
  decide

/-- Claim C2 (amended): in every presence state satisfying the
reverse-map consistency invariant, a connection is listed in at most one
channel, namely the one recorded for it in the reverse map; the
invariant is preserved by every disconnect and by every join issued by a
connection with no current reverse-map entry — but not, as the
counterexample shows, by a join from a connection already in another
channel. -/
theorem presence_at_most_one_channel :
    (∀ (pre : Presence) (sid c1 c2 : String), PresenceInv pre →
      memberOf pre c1 sid = true → memberOf pre c2 sid = true →
      c1 = c2 ∧ getAssoc pre.socketChannelMap sid = some c1) ∧
    (∀ (cfg : Config) (reg : List Channel) (pre : Presence) (sid : String)
        (roomId userName password : Option String) (now : String),
      PresenceInv pre → getAssoc pre.socketChannelMap sid = none →
      PresenceInv (joinRoom cfg reg pre sid roomId userName password now).state) ∧
    (∀ (pre : Presence) (sid : String), PresenceInv pre →
      PresenceInv (disconnect pre sid).state) := by
  refine ⟨?_, ?_, ?_⟩
  · intro pre sid c1 c2 hinv h1 h2
    have g1 := hinv sid c1 h1
    have g2 := hinv sid c2 h2
    rw [g1] at g2
    exact ⟨Option.some.inj g2, g1⟩
  · intro cfg reg pre sid roomId userName password now hinv hnone
    exact joinRoom_preserves_inv cfg reg pre sid roomId userName password now hinv hnone
  · intro pre sid hinv
    exact disconnect_preserves_inv pre sid hinv

/-- Witness for C2 (amended): a fresh join into the empty presence state
preserves the invariant. -/
theorem presence_at_most_one_channel_witness :
    PresenceInv (joinRoom ⟨3000, 10, ["*"]⟩ demoRegXY ⟨[], []⟩
      "s" (some "x") (some "Alice") none "t1").state :=
  presence_at_most_one_channel.2.1 ⟨3000, 10, ["*"]⟩ demoRegXY ⟨[], []⟩
    "s" (some "x") (some "Alice") none "t1"
    (fun sid cid hm => by simp [memberOf, getAssoc, hasMember] at hm)
    rfl

/-- Claim C9: the broadcast snapshot exposes only
`{id, name, maxUsers, hasPassword, onlineCount, onlineUsers}` (the type
of its entries) and never the password secret: two registries agreeing
on those public fields — in particular two differing only in their
password secrets — produce identical snapshots under every presence
state. -/
theorem snapshot_no_password_leak (reg reg' : List Channel) (pre : Presence)
    (h : List.Forall₂ SamePublic reg reg') :
    buildChannelsState reg pre = buildChannelsState reg' pre := by
  induction h with
  | nil => rfl
  | @cons a b l₁ l₂ hab htail ih =>
    obtain ⟨h1, h2, h3, h4⟩ := hab
    unfold buildChannelsState at ih ⊢
    simp only [List.map_cons]
    rw [h1, h2, h3, h4, ih]

/-- Witness for C9: registries differing only in the stored password
secret yield the same snapshot. -/
theorem snapshot_no_password_leak_witness :
    buildChannelsState [⟨"a", "A", 5, true, some "secret1", "t"⟩] ⟨[], []⟩
      = buildChannelsState [⟨"a", "A", 5, true, some "secret2", "t"⟩] ⟨[], []⟩ :=
  snapshot_no_password_leak _ _ _
    (List.Forall₂.cons ⟨rfl, rfl, rfl, rfl⟩ List.Forall₂.nil)

end VoiceChat
